import Mathlib

/-!
Verification development for the `waveform` batch-rendering command
(`cmd/waveform/waveform.go`).

The program reads a JSON batch of render requests from standard input,
renders each request's base64-encoded audio payload through an external
rendering engine, and prints responses to standard output.  We embed the
program shallowly:

* Go strings are modelled as Lean `String` / `List Char` (the program only
  slices ASCII data in the cases that produce non-trivial results; where the
  Go code slices bytes of a non-ASCII string both models agree on the
  `(0,0,0)` fallback, see `hexToRGB`).
* Machine integers are `Nat` with explicit `% 256` truncation where the Go
  code converts to `uint8`.
* The external rendering engine (`waveform.Generate`) and the TIFF encoder
  are abstracted as an `Engine` record, since the spec scopes them out as an
  external collaborator; the orchestrator is modelled faithfully around it.
* `encoding/json` and `encoding/base64` behavior is modelled from the Go
  standard library semantics actually exercised by the program.
-/

set_option autoImplicit false

namespace Waveform

/-! ### Hex color parsing (`hexToRGB`, waveform.go lines 213-226) -/

/-- Value of one hex digit, as accepted by Go `strconv.ParseUint(h, 16, 32)`:
decimal digits, lowercase `a`-`f`, uppercase `A`-`F`. -/
def hexVal (c : Char) : Option Nat :=
  let n := c.toNat
  if 48 ≤ n ∧ n ≤ 57 then some (n - 48)
  else if 97 ≤ n ∧ n ≤ 102 then some (n - 87)
  else if 65 ≤ n ∧ n ≤ 70 then some (n - 55)
  else none

/-- Accumulating base-16 parse of a digit string; fails on the first
non-hex character, as `strconv.ParseUint` does. -/
def parseHexCore (acc : Nat) : List Char → Option Nat
  | [] => some acc
  | c :: cs =>
    match hexVal c with
    | none => none
    | some v => parseHexCore (acc * 16 + v) cs

/-- Model of Go `strconv.ParseUint(string(h), 16, 32)`: an empty string or a
non-hex character is an error, and so is a value not fitting 32 bits. -/
def parseHexU32 (cs : List Char) : Option Nat :=
  match cs with
  | [] => none
  | _ =>
    match parseHexCore 0 cs with
    | none => none
    | some n => if n < 4294967296 then some n else none

/-- Strip a single leading `#` (Go: `if len(h) > 0 && h[0] == '#'`). -/
def stripHash : List Char → List Char
  | '#' :: rest => rest
  | cs => cs

/-- Go: `h = h[:1] + h[:1] + h[1:2] + h[1:2] + h[2:] + h[2:]`, applied only
when `len(h) == 3`. -/
def expand3 (cs : List Char) : List Char :=
  match cs with
  | [a, b, c] => [a, a, b, b, c, c]
  | _ => cs

/-- Second half of `hexToRGB`: the length-6 parse, the `uint8` truncations
of `rgb >> 16`, `(rgb >> 8) & 0xFF`, `rgb & 0xFF`, and the `(0, 0, 0)`
fallback. -/
def hexBody6 (h2 : List Char) : Nat × Nat × Nat :=
  if h2.length = 6 then
    match parseHexU32 h2 with
    | some rgb => ((rgb / 65536) % 256, (rgb / 256) % 256, rgb % 256)
    | none => (0, 0, 0)
  else (0, 0, 0)

/-- Body of `hexToRGB` after the `#` strip: length-3 expansion, then the
length-6 parse. -/
def hexBody (h1 : List Char) : Nat × Nat × Nat :=
  hexBody6 (if h1.length = 3 then expand3 h1 else h1)

/-- Model of `hexToRGB` (waveform.go lines 213-226). -/
def hexToRGB (h : String) : Nat × Nat × Nat :=
  hexBody (stripHash h.data)

/-- Spec-side definition ("standard hex-to-RGB expansion", spec 4.1): the
triple named by a 3-digit shorthand (each digit duplicated) or a 6-digit hex
string.  Stated from the spec's words, to be compared with `hexToRGB`. -/
def standardRGB (ds : List Char) : Nat × Nat × Nat :=
  match ds with
  | [d1, d2, d3] =>
    (17 * (hexVal d1).getD 0, 17 * (hexVal d2).getD 0, 17 * (hexVal d3).getD 0)
  | [d1, d2, d3, d4, d5, d6] =>
    (16 * (hexVal d1).getD 0 + (hexVal d2).getD 0,
     16 * (hexVal d3).getD 0 + (hexVal d4).getD 0,
     16 * (hexVal d5).getD 0 + (hexVal d6).getD 0)
  | _ => (0, 0, 0)

/-! ### Startup color resolution (waveform.go lines 100-114) -/

/-- Colors resolved at startup: background and foreground via `hexToRGB`;
the alternate color starts as the foreground color and is replaced by
`hexToRGB altHex` only when the `alt` flag is non-empty.  Alpha is fixed at
255 in the Go code and carried implicitly. -/
def resolveColors (bgHex fgHex altHex : String) :
    (Nat × Nat × Nat) × (Nat × Nat × Nat) × (Nat × Nat × Nat) :=
  let bg := hexToRGB bgHex
  let fg := hexToRGB fgHex
  let alt := if altHex = "" then fg else hexToRGB altHex
  (bg, fg, alt)

/-! ### Color function table (waveform.go lines 117-129) -/

/-- The keys of the `fnSet` map: the five recognized color function names. -/
def fnNames : List String := ["checker", "fuzz", "gradient", "solid", "stripe"]

/-- `colorFn, ok := fnSet[*strFn]` succeeds exactly when the flag names one
of the five map keys. -/
def validFn (s : String) : Bool := fnNames.contains s

/-! ### Base64 (`encoding/base64`, `StdEncoding`)

The program calls `base64.StdEncoding.DecodeString` on each request payload
(discarding the error) and `base64.StdEncoding.EncodeToString` on the TIFF
buffer.  We model the standard alphabet with `=` padding, including Go's
partial-output semantics on decode errors: newlines are skipped anywhere,
each complete 4-character quantum before the offending position contributes
its bytes, an invalid character or truncated final quantum contributes
nothing, and data before `=` padding followed by trailing garbage is still
emitted alongside the error. -/

/-- Position of a character in the standard base64 alphabet
`A`-`Z`, `a`-`z`, `0`-`9`, `+`, `/`. -/
def b64Index (c : Char) : Option Nat :=
  let n := c.toNat
  if 65 ≤ n ∧ n ≤ 90 then some (n - 65)
  else if 97 ≤ n ∧ n ≤ 122 then some (n - 71)
  else if 48 ≤ n ∧ n ≤ 57 then some (n + 4)
  else if c = '+' then some 62
  else if c = '/' then some 63
  else none

/-- Bytes reconstructed from the 6-bit values of one quantum of 2, 3 or 4
base64 characters. -/
def quantumBytes : List Nat → List Nat
  | [a, b] => [a * 4 + b / 16]
  | [a, b, c] => [a * 4 + b / 16, (b % 16) * 16 + c / 4]
  | [a, b, c, d] => [a * 4 + b / 16, (b % 16) * 16 + c / 4, (c % 4) * 64 + d]
  | _ => []

/-- Quantum-by-quantum decode over a newline-free character stream,
returning the decoded bytes and whether decoding ran without error
(`true` = no error, matching `err == nil`). -/
def b64DecodeCore : List Char → List Nat × Bool
  | [] => ([], true)
  | c1 :: rest1 =>
    match b64Index c1 with
    | none => ([], false)
    | some v1 =>
      match rest1 with
      | [] => ([], false)
      | c2 :: rest2 =>
        match b64Index c2 with
        | none => ([], false)
        | some v2 =>
          match rest2 with
          | [] => ([], false)
          | c3 :: rest3 =>
            if c3 = '=' then
              match rest3 with
              | '=' :: rest4 =>
                if rest4 = [] then (quantumBytes [v1, v2], true)
                else (quantumBytes [v1, v2], false)
              | _ => ([], false)
            else
              match b64Index c3 with
              | none => ([], false)
              | some v3 =>
                match rest3 with
                | [] => ([], false)
                | c4 :: rest4 =>
                  if c4 = '=' then
                    if rest4 = [] then (quantumBytes [v1, v2, v3], true)
                    else (quantumBytes [v1, v2, v3], false)
                  else
                    match b64Index c4 with
                    | none => ([], false)
                    | some v4 =>
                      let r := b64DecodeCore rest4
                      (quantumBytes [v1, v2, v3, v4] ++ r.1, r.2)

/-- Model of `base64.StdEncoding.DecodeString`: `.1` is the (possibly
partial) decoded buffer, `.2` is `true` exactly when no error occurred. -/
def b64DecodeGo (s : String) : List Nat × Bool :=
  b64DecodeCore (s.data.filter (fun c => !(c = '\n' ∨ c = '\r')))

/-- Character of the standard base64 alphabet at index `n < 64`. -/
def b64Char (n : Nat) : Char :=
  if n < 26 then Char.ofNat (65 + n)
  else if n < 52 then Char.ofNat (71 + n)
  else if n < 62 then Char.ofNat (n - 4)
  else if n = 62 then '+'
  else '/'

/-- Standard base64 encoding of a byte list, with `=` padding. -/
def b64EncodeCore : List Nat → List Char
  | [] => []
  | [a] => [b64Char (a / 4), b64Char ((a % 4) * 16), '=', '=']
  | [a, b] => [b64Char (a / 4), b64Char ((a % 4) * 16 + b / 16), b64Char ((b % 16) * 4), '=']
  | a :: b :: c :: rest =>
    b64Char (a / 4) :: b64Char ((a % 4) * 16 + b / 16) ::
    b64Char ((b % 16) * 4 + c / 64) :: b64Char (c % 64) :: b64EncodeCore rest

/-- Model of `base64.StdEncoding.EncodeToString`. -/
def base64Encode (bs : List Nat) : String := String.mk (b64EncodeCore bs)

/-! ### Wire data model (waveform.go lines 24-44) -/

/-- Go struct `Request` with JSON tags `id`, `function`, `params`. -/
structure Request where
  id : String
  function : String
  params : List String
deriving DecidableEq

/-- Go struct `Requests` with JSON tag `requests`. -/
structure Requests where
  requests : List Request
deriving DecidableEq

/-- Go struct `Response` with JSON tags `id`, `result`, `error`. -/
structure Response where
  id : String
  result : String
  error : String
deriving DecidableEq

/-- Go struct `Responses` with JSON tag `responses`. -/
structure Responses where
  responses : List Response
deriving DecidableEq

/-! ### JSON syntax (`encoding/json` scanner)

`json.Unmarshal` first validates the whole input against the JSON grammar
(`checkValid`); on a syntax error it returns before writing anything to the
target struct.  We model the grammar with a fuel-indexed recursive-descent
parser.  Numeric lexemes are validated but their value is not retained: no
field of `Requests` has numeric type, so a number can never be stored by the
unmarshaler.  Unicode escapes are mapped through `Char.ofNat` (surrogate
halves, which Go maps to U+FFFD, are outside the behavior any claim
touches). -/

/-- A parsed JSON value. -/
inductive Json where
  | null
  | bool (b : Bool)
  | num
  | str (s : String)
  | arr (xs : List Json)
  | obj (fields : List (String × Json))

/-- JSON insignificant whitespace: space, tab, newline, carriage return. -/
def skipWs : List Char → List Char
  | c :: cs => if c = ' ' ∨ c = '\t' ∨ c = '\n' ∨ c = '\r' then skipWs cs else c :: cs
  | [] => []

/-- Parse the body of a JSON string after the opening quote; returns the
unescaped content and the remaining input.  Raw control characters are a
syntax error, as in Go's scanner. -/
def parseStringBody : List Char → Option (List Char × List Char)
  | [] => none
  | c :: cs =>
    if c = '"' then some ([], cs)
    else if c = '\\' then
      match cs with
      | [] => none
      | e :: cs2 =>
        let esc : Option Char :=
          if e = '"' then some '"'
          else if e = '\\' then some '\\'
          else if e = '/' then some '/'
          else if e = 'b' then some (Char.ofNat 8)
          else if e = 'f' then some (Char.ofNat 12)
          else if e = 'n' then some (Char.ofNat 10)
          else if e = 'r' then some (Char.ofNat 13)
          else if e = 't' then some (Char.ofNat 9)
          else none
        match esc with
        | some ch => (parseStringBody cs2).map (fun p => (ch :: p.1, p.2))
        | none =>
          if e = 'u' then
            match cs2 with
            | a :: b :: c2 :: d :: cs3 =>
              match hexVal a, hexVal b, hexVal c2, hexVal d with
              | some va, some vb, some vc, some vd =>
                (parseStringBody cs3).map
                  (fun p => (Char.ofNat (((va * 16 + vb) * 16 + vc) * 16 + vd) :: p.1, p.2))
              | _, _, _, _ => none
            | _ => none
          else none
    else if c.toNat < 32 then none
    else (parseStringBody cs).map (fun p => (c :: p.1, p.2))

/-- Split a leading run of decimal digits from the input. -/
def digitSpan : List Char → List Char × List Char
  | [] => ([], [])
  | c :: cs =>
    if c.isDigit then
      let r := digitSpan cs
      (c :: r.1, r.2)
    else ([], c :: cs)

/-- Optional fraction part `.digits`; at least one digit required. -/
def parseFrac (cs : List Char) : Option (List Char) :=
  match cs with
  | '.' :: r =>
    let p := digitSpan r
    if p.1 = [] then none else some p.2
  | _ => some cs

/-- Optional exponent part `(e|E)(+|-)?digits`; at least one digit required. -/
def parseExp (cs : List Char) : Option (List Char) :=
  match cs with
  | c :: r =>
    if c = 'e' ∨ c = 'E' then
      let r2 := match r with
        | s :: r3 => if s = '+' ∨ s = '-' then r3 else s :: r3
        | [] => []
      let p := digitSpan r2
      if p.1 = [] then none else some p.2
    else some (c :: r)
  | [] => some []

/-- JSON number: optional minus, integer part (a lone `0` or a nonzero-led
digit run), optional fraction and exponent.  A digit directly following a
leading `0` is left in the remainder and rejected by the caller, matching
the grammar's leading-zero rule. -/
def parseNumber (cs : List Char) : Option (Json × List Char) :=
  let cs1 := match cs with
    | '-' :: r => r
    | _ => cs
  match cs1 with
  | c :: r =>
    if c = '0' then do
      let r2 ← parseFrac r
      let r3 ← parseExp r2
      some (Json.num, r3)
    else if c.isDigit then do
      let p := digitSpan (c :: r)
      let r2 ← parseFrac p.2
      let r3 ← parseExp r2
      some (Json.num, r3)
    else none
  | [] => none

mutual

/-- Parse one JSON value (fuel-indexed recursive descent). -/
def parseValue : Nat → List Char → Option (Json × List Char)
  | 0, _ => none
  | f + 1, cs =>
    match skipWs cs with
    | [] => none
    | c :: rest =>
      if c = '"' then (parseStringBody rest).map (fun p => (Json.str (String.mk p.1), p.2))
      else if c = 'n' then
        match rest with
        | 'u' :: 'l' :: 'l' :: r => some (Json.null, r)
        | _ => none
      else if c = 't' then
        match rest with
        | 'r' :: 'u' :: 'e' :: r => some (Json.bool true, r)
        | _ => none
      else if c = 'f' then
        match rest with
        | 'a' :: 'l' :: 's' :: 'e' :: r => some (Json.bool false, r)
        | _ => none
      else if c = '[' then
        match skipWs rest with
        | ']' :: r => some (Json.arr [], r)
        | cs2 => (parseElems f cs2).map (fun p => (Json.arr p.1, p.2))
      else if c = '\x7b' then
        match skipWs rest with
        | '\x7d' :: r => some (Json.obj [], r)
        | cs2 => (parseMembers f cs2).map (fun p => (Json.obj p.1, p.2))
      else parseNumber (c :: rest)

/-- Parse one or more comma-separated array elements and the closing `]`. -/
def parseElems : Nat → List Char → Option (List Json × List Char)
  | 0, _ => none
  | f + 1, cs => do
    let (v, r1) ← parseValue f cs
    match skipWs r1 with
    | ',' :: r2 => do
      let (vs, r3) ← parseElems f r2
      some (v :: vs, r3)
    | ']' :: r2 => some ([v], r2)
    | _ => none

/-- Parse one or more `"key": value` members and the closing brace. -/
def parseMembers : Nat → List Char → Option (List (String × Json) × List Char)
  | 0, _ => none
  | f + 1, cs =>
    match skipWs cs with
    | '"' :: r0 => do
      let (k, r1) ← parseStringBody r0
      match skipWs r1 with
      | ':' :: r2 => do
        let (v, r3) ← parseValue f r2
        match skipWs r3 with
        | ',' :: r4 => do
          let (ms, r5) ← parseMembers f r4
          some ((String.mk k, v) :: ms, r5)
        | '\x7d' :: r4 => some ([(String.mk k, v)], r4)
        | _ => none
      | _ => none
    | _ => none

end

/-- Parse a whole input as one JSON document: one value, then only
whitespace.  `none` models a `json.Unmarshal` syntax error, in which case
the target struct is left untouched. -/
def jsonParse (s : String) : Option Json :=
  match parseValue (2 * s.length + 2) s.data with
  | some (j, rest) => if skipWs rest = [] then some j else none
  | none => none

/-! ### JSON unmarshaling into `Requests` (`encoding/json` decoder)

On a type mismatch Go "skips that field and completes the unmarshaling as
best it can": the offending field keeps its previous value, every other
field is still decoded, and the (first) error is returned — which the
program discards (`json.Unmarshal(buf.Bytes(), &requests)` at line 143).
Object keys match struct tags exactly or case-insensitively, later
duplicates overwriting earlier ones; `null` sets slices to nil and leaves
strings and structs unchanged. -/

/-- A JSON value stored into a Go `string` field: only a JSON string. -/
def asString : Json → Option String
  | .str s => some s
  | _ => none

/-- A JSON value stored into a Go `[]string` field.  `none` means the field
keeps its previous value (type mismatch); an array stores the zero value
`""` for each non-string element; `null` sets the slice to nil. -/
def decodeParams : Json → Option (List String)
  | .arr xs => some (xs.map (fun x => (asString x).getD ""))
  | .null => some []
  | _ => none

/-- ASCII lowercase of one character. -/
def lowerAscii (c : Char) : Char :=
  if 65 ≤ c.toNat ∧ c.toNat ≤ 90 then Char.ofNat (c.toNat + 32) else c

/-- Key-to-tag matching: exact, or ASCII case-insensitive (the tags in play
are all lowercase ASCII). -/
def fieldMatches (key target : String) : Bool :=
  key = target || String.mk (key.data.map lowerAscii) = target

/-- Decode one element of the `requests` array into a `Request`, starting
from the zero value and folding the object's members in order. -/
def decodeRequest (j : Json) : Request :=
  match j with
  | .obj fields =>
    fields.foldl
      (fun r kv =>
        if fieldMatches kv.1 "id" then { r with id := (asString kv.2).getD r.id }
        else if fieldMatches kv.1 "function" then
          { r with function := (asString kv.2).getD r.function }
        else if fieldMatches kv.1 "params" then
          { r with params := (decodeParams kv.2).getD r.params }
        else r)
      ⟨"", "", []⟩
  | _ => ⟨"", "", []⟩

/-- A JSON value stored into the `[]Request` field: an array decodes each
element (mismatched elements stay zero-valued), `null` clears the slice,
anything else keeps the previous value. -/
def decodeReqArray : Json → Option (List Request)
  | .arr xs => some (xs.map decodeRequest)
  | .null => some []
  | _ => none

/-- Decode a parsed JSON document into the `Requests` struct. -/
def decodeRequestsJson : Json → Requests
  | .obj fields =>
    fields.foldl
      (fun r kv =>
        if fieldMatches kv.1 "requests" then
          { r with requests := (decodeReqArray kv.2).getD r.requests }
        else r)
      ⟨[]⟩
  | _ => ⟨[]⟩

/-- Model of lines 142-143: `json.Unmarshal(buf.Bytes(), &requests)` with
the returned error ignored.  A syntax error leaves `requests` at its zero
value, so the request sequence is empty. -/
def decodeRequests (s : String) : Requests :=
  match jsonParse s with
  | none => ⟨[]⟩
  | some j => decodeRequestsJson j

/-! ### Rendering engine collaborator (spec 4.4; waveform.go lines 154-189)

`waveform.Generate` and the TIFF encoder live outside this repository (the
spec scopes them out as the external Rendering Engine).  The orchestrator is
therefore parameterized by an `Engine`: `generate` models
`waveform.Generate` applied to the decoded payload (the command-line option
set is fixed for the whole batch, so it is folded into the engine value),
and `encodeImage` models `tiff.Encode` into the in-memory buffer, which for
an in-memory `bytes.Buffer` destination does not fail. -/

/-- Rendered image bytes. -/
abbrev Image := List Nat

/-- The engine's error taxonomy: the three sentinel errors the program
recognizes (`waveform.ErrFormat`, `waveform.ErrInvalidData`,
`waveform.ErrUnexpectedEOS`) and everything else. -/
inductive RenderErr where
  | errFormat
  | errInvalidData
  | errUnexpectedEOS
  | unknown (msg : String)
deriving DecidableEq

/-- Membership in the `knownErr` map built at lines 163-168. -/
def knownRenderErr : RenderErr → Bool
  | .errFormat => true
  | .errInvalidData => true
  | .errUnexpectedEOS => true
  | .unknown _ => false

/-- External rendering engine collaborator. -/
structure Engine where
  generate : List Nat → Except RenderErr Image
  encodeImage : Image → List Nat

/-! ### Batch orchestrator (waveform.go `main`, lines 131-208) -/

/-- How a run of the process ends abnormally. -/
inductive AbortKind where
  | fatalConfig : AbortKind
  | fatalRender : RenderErr → AbortKind
  | panicRender : RenderErr → AbortKind
  | panicIndex : AbortKind
deriving DecidableEq

/-- Result of a process run: the list of JSON documents printed to standard
output (one per `fmt.Println` at line 195), and whether the process ran to
completion or aborted (via `log.Fatal` or `panic`) after printing them. -/
inductive Outcome where
  | ok : List Responses → Outcome
  | aborted : List Responses → AbortKind → Outcome
deriving DecidableEq

/-- Prepend one printed document to an outcome's output. -/
def consDoc (d : Responses) : Outcome → Outcome
  | .ok docs => .ok (d :: docs)
  | .aborted docs k => .aborted (d :: docs) k

/-- Lines 162-177: a known render error is a `log.Fatal`, anything else is
a `panic`. -/
def abortOfErr (e : RenderErr) : AbortKind :=
  if knownRenderErr e then .fatalRender e else .panicRender e

/-- The request loop (lines 146-197).  For each request whose `function` is
`"waveform"`: index `params[0]` (an out-of-range panic when `params` is
empty), base64-decode it discarding the error (the `err` from
`DecodeString` at line 148 is immediately shadowed at line 154 and never
inspected), render the decoded buffer, and on success print one JSON
document holding the single response `{id, base64(tiff), "false"}`.  Other
requests are skipped. -/
def processRequests (eng : Engine) : List Request → Outcome
  | [] => .ok []
  | r :: rs =>
    if r.function = "waveform" then
      match r.params with
      | [] => .aborted [] .panicIndex
      | p :: _ =>
        match eng.generate (b64DecodeGo p).1 with
        | .error e => .aborted [] (abortOfErr e)
        | .ok img =>
          consDoc ⟨[⟨r.id, base64Encode (eng.encodeImage img), "false"⟩]⟩
            (processRequests eng rs)
    else processRequests eng rs

/-- Model of `main` on a given input stream: resolve the color function
(line 126) — an unrecognized `fn` flag is a `log.Fatalf` before the stdin
reader is even constructed (line 131) — then accumulate the whole stream,
unmarshal it (errors ignored), and run the request loop.  The line-by-line
`ReadString('\n')` accumulation concatenates every chunk, including the
final unterminated one, so the parsed bytes are exactly the full input. -/
def runMain (fn : String) (eng : Engine) (input : String) : Outcome :=
  if validFn fn then processRequests eng (decodeRequests input).requests
  else .aborted [] .fatalConfig

/-! ### Output serialization (`json.Marshal` at line 193, `fmt.Println`) -/

/-- Go `json.Marshal` string escaping (HTML-escaping `<`, `>`, `&`, the
short escapes for control characters, `\uXXXX` otherwise; the inputs in
play are ASCII). -/
def goEscapeChar (c : Char) : List Char :=
  if c = '"' then ['\\', '"']
  else if c = '\\' then ['\\', '\\']
  else if c = '<' then String.toList "\\u003c"
  else if c = '>' then String.toList "\\u003e"
  else if c = '&' then String.toList "\\u0026"
  else if c.toNat = 10 then ['\\', 'n']
  else if c.toNat = 13 then ['\\', 'r']
  else if c.toNat = 9 then ['\\', 't']
  else if c.toNat < 32 then
    String.toList "\\u00" ++
      [(if c.toNat / 16 < 10 then Char.ofNat (48 + c.toNat / 16) else Char.ofNat (87 + c.toNat / 16)),
       (if c.toNat % 16 < 10 then Char.ofNat (48 + c.toNat % 16) else Char.ofNat (87 + c.toNat % 16))]
  else [c]

/-- A Go-marshaled JSON string literal. -/
def marshalString (s : String) : String :=
  "\"" ++ String.mk (s.data.flatMap goEscapeChar) ++ "\""

/-- `json.Marshal` of one `Response`, fields in declaration order with their
tags. -/
def marshalResponse (r : Response) : String :=
  "\x7b\x22id\x22:" ++ marshalString r.id ++ ",\x22result\x22:" ++ marshalString r.result ++
    ",\x22error\x22:" ++ marshalString r.error ++ "\x7d"

/-- `json.Marshal` of one `Responses` document. -/
def marshalResponses (rs : Responses) : String :=
  "\x7b\x22responses\x22:[" ++ String.intercalate "," (rs.responses.map marshalResponse) ++ "]\x7d"

/-- Everything written to standard output: each printed document followed by
the newline `fmt.Println` appends. -/
def printedOutput (docs : List Responses) : String :=
  String.join (docs.map (fun d => marshalResponses d ++ "\n"))

/-! ### Derived notions used by the theorems -/

/-- A request the loop handles without aborting: either it is skipped, or
its params are non-empty and the engine renders its decoded payload. -/
def goodReq (eng : Engine) (q : Request) : Prop :=
  q.function = "waveform" →
    ∃ p ps img, q.params = p :: ps ∧ eng.generate (b64DecodeGo p).1 = .ok img

/-- The single-response document printed for a successfully rendered
request. -/
def renderDoc (eng : Engine) (q : Request) : Responses :=
  match q.params with
  | [] => ⟨[]⟩
  | p :: _ =>
    match eng.generate (b64DecodeGo p).1 with
    | .ok img => ⟨[⟨q.id, base64Encode (eng.encodeImage img), "false"⟩]⟩
    | .error _ => ⟨[]⟩

/-- Prepend a list of printed documents to an outcome's output. -/
def prependDocs (docs : List Responses) (o : Outcome) : Outcome :=
  docs.foldr consDoc o

/-- A concrete engine for witnesses: rendering always succeeds with image
`[1]`, and image encoding prepends a header byte. -/
def engDemo : Engine := ⟨fun _ => .ok [1], fun img => 2 :: img⟩

/-- A concrete engine whose rendering always fails with the classified
error `waveform.ErrFormat`. -/
def engFail : Engine := ⟨fun _ => .error .errFormat, fun img => img⟩

/-- A concrete engine whose rendering always fails with an unclassified
error. -/
def engPanic : Engine := ⟨fun _ => .error (.unknown "boom"), fun img => img⟩

/-- Concrete input: the empty batch `{"requests":[]}`. -/
def emptyBatchInput : String := "\x7b\x22requests\x22:[]\x7d"

/-- Concrete input: a batch of two render requests with ids `1` and `2`. -/
def twoBatchInput : String :=
  "\x7b\x22requests\x22:[\x7b\x22id\x22:\x221\x22,\x22function\x22:\x22waveform\x22,\x22params\x22:[\x22\x22]\x7d,\x7b\x22id\x22:\x222\x22,\x22function\x22:\x22waveform\x22,\x22params\x22:[\x22\x22]\x7d]\x7d"

/-- Concrete input: syntactically valid JSON that is not a well-formed
envelope of the expected shape (`params` is a number, not an array of
strings). -/
def badShapeInput : String :=
  "\x7b\x22requests\x22:[\x7b\x22id\x22:\x22x\x22,\x22function\x22:\x22waveform\x22,\x22params\x22:5\x7d]\x7d"

/-! ### Lemmas about hex parsing -/

theorem hexVal_lt_16 {c : Char} {v : Nat} (h : hexVal c = some v) : v < 16 := by
  simp only [hexVal] at h
  split_ifs at h with h1 h2 h3
  · injection h with h2
    omega
  · injection h with h3
    omega
  · injection h with h4
    omega

theorem parseHexCore_none {cs : List Char} (hc : ∃ c ∈ cs, hexVal c = none) (acc : Nat) :
    parseHexCore acc cs = none := by
  induction cs generalizing acc with
  | nil => simp at hc
  | cons c cs ih =>
    obtain ⟨d, hd, hdnone⟩ := hc
    rcases List.mem_cons.mp hd with rfl | hdm
    · simp [parseHexCore, hdnone]
    · unfold parseHexCore
      cases h : hexVal c with
      | none => rfl
      | some v => exact ih ⟨d, hdm, hdnone⟩ _

theorem list_length_eq_six {α : Type} {l : List α} (h : l.length = 6) :
    ∃ a b c d e f, l = [a, b, c, d, e, f] := by
  rcases l with _ | ⟨a, l⟩
  · simp at h
  rcases l with _ | ⟨b, l⟩
  · simp at h
  rcases l with _ | ⟨c, l⟩
  · simp at h
  rcases l with _ | ⟨d, l⟩
  · simp at h
  rcases l with _ | ⟨e, l⟩
  · simp at h
  rcases l with _ | ⟨f, l⟩
  · simp at h
  have hl : l = [] := by
    simp only [List.length_cons] at h
    exact List.length_eq_zero.mp (by omega)
  exact ⟨a, b, c, d, e, f, by rw [hl]⟩

theorem hexBody6_valid {a b c d e f : Char} {va vb vc vd ve vf : Nat}
    (ha : hexVal a = some va) (hb : hexVal b = some vb) (hc : hexVal c = some vc)
    (hd : hexVal d = some vd) (he : hexVal e = some ve) (hf : hexVal f = some vf) :
    hexBody6 [a, b, c, d, e, f] = (16 * va + vb, 16 * vc + vd, 16 * ve + vf) := by
  have hva := hexVal_lt_16 ha
  have hvb := hexVal_lt_16 hb
  have hvc := hexVal_lt_16 hc
  have hvd := hexVal_lt_16 hd
  have hve := hexVal_lt_16 he
  have hvf := hexVal_lt_16 hf
  simp only [hexBody6, parseHexU32, parseHexCore, ha, hb, hc, hd, he, hf,
    List.length_cons, List.length_nil]
  norm_num
  split_ifs with hcond
  · simp only [Prod.mk.injEq]
    omega
  · omega

theorem hexBody6_none {h2 : List Char} (hbad : ∃ c ∈ h2, hexVal c = none) :
    hexBody6 h2 = (0, 0, 0) := by
  unfold hexBody6
  split_ifs with hlen
  · cases h2 with
    | nil => simp at hlen
    | cons x xs =>
      unfold parseHexU32
      simp only [parseHexCore_none hbad]
  · rfl

theorem hexBody_eq_of_length3 {h1 : List Char} (h : h1.length = 3) :
    hexBody h1 = hexBody6 (expand3 h1) := by
  unfold hexBody
  rw [if_pos h]

theorem hexBody_eq_of_other {h1 : List Char} (h : h1.length ≠ 3) :
    hexBody h1 = hexBody6 h1 := by
  unfold hexBody
  rw [if_neg h]

/-! ### claim C3 -/

/-- Claim C3: for every string that, after stripping a single leading `#`,
is a valid 3- or 6-digit hex color, `hexToRGB` returns the exact RGB triple
given by standard hex-to-RGB expansion (`standardRGB`); for every other
string it returns `(0, 0, 0)`. -/
theorem claim_C3_hexToRGB (s : String) :
    ((∀ c ∈ stripHash s.data, (hexVal c).isSome) ∧
        ((stripHash s.data).length = 3 ∨ (stripHash s.data).length = 6) →
      hexToRGB s = standardRGB (stripHash s.data)) ∧
    (¬ ((∀ c ∈ stripHash s.data, (hexVal c).isSome) ∧
        ((stripHash s.data).length = 3 ∨ (stripHash s.data).length = 6)) →
      hexToRGB s = (0, 0, 0)) := by
  constructor
  · rintro ⟨hall, hlen⟩
    show hexBody (stripHash s.data) = _
    rcases hlen with h3 | h6
    · obtain ⟨a, b, c, hds⟩ := List.length_eq_three.mp h3
      rw [hds] at hall ⊢
      obtain ⟨va, ha⟩ := Option.isSome_iff_exists.mp (hall a (by simp))
      obtain ⟨vb, hb⟩ := Option.isSome_iff_exists.mp (hall b (by simp))
      obtain ⟨vc, hc⟩ := Option.isSome_iff_exists.mp (hall c (by simp))
      rw [hexBody_eq_of_length3 (by simp)]
      show hexBody6 [a, a, b, b, c, c] = _
      rw [hexBody6_valid ha ha hb hb hc hc]
      simp only [standardRGB, ha, hb, hc, Option.getD_some, Prod.mk.injEq]
      omega
    · obtain ⟨a, b, c, d, e, f, hds⟩ := list_length_eq_six h6
      rw [hds] at hall ⊢
      obtain ⟨va, ha⟩ := Option.isSome_iff_exists.mp (hall a (by simp))
      obtain ⟨vb, hb⟩ := Option.isSome_iff_exists.mp (hall b (by simp))
      obtain ⟨vc, hc⟩ := Option.isSome_iff_exists.mp (hall c (by simp))
      obtain ⟨vd, hd⟩ := Option.isSome_iff_exists.mp (hall d (by simp))
      obtain ⟨ve, he⟩ := Option.isSome_iff_exists.mp (hall e (by simp))
      obtain ⟨vf, hf⟩ := Option.isSome_iff_exists.mp (hall f (by simp))
      rw [hexBody_eq_of_other (by simp)]
      rw [hexBody6_valid ha hb hc hd he hf]
      simp [standardRGB, ha, hb, hc, hd, he, hf]
  · intro h
    show hexBody (stripHash s.data) = _
    generalize hds : stripHash s.data = ds at h
    have hbad : (ds.length = 3 ∨ ds.length = 6) → ∃ c ∈ ds, hexVal c = none := by
      intro hlen
      by_contra hallc
      push_neg at hallc
      refine h ⟨fun c hc => ?_, hlen⟩
      cases hv : hexVal c with
      | none => exact absurd hv (hallc c hc)
      | some v => simp
    by_cases h3 : ds.length = 3
    · obtain ⟨x, hx, hxn⟩ := hbad (Or.inl h3)
      obtain ⟨a, b, c, rfl⟩ := List.length_eq_three.mp h3
      rw [hexBody_eq_of_length3 h3]
      show hexBody6 [a, a, b, b, c, c] = _
      refine hexBody6_none ⟨x, ?_, hxn⟩
      simp only [List.mem_cons, List.not_mem_nil, or_false] at hx ⊢
      tauto
    · rw [hexBody_eq_of_other h3]
      by_cases h6 : ds.length = 6
      · exact hexBody6_none (hbad (Or.inr h6))
      · unfold hexBody6
        rw [if_neg h6]

/-- Witness for claim C3 at concrete inputs: `#abc` expands to
`(170, 187, 204)` and `xyz` falls back to `(0, 0, 0)`. -/
theorem claim_C3_hexToRGB_witness :
    hexToRGB "#abc" = standardRGB (stripHash "#abc".data) ∧ hexToRGB "xyz" = (0, 0, 0) :=
  ⟨(claim_C3_hexToRGB "#abc").1 (by decide), (claim_C3_hexToRGB "xyz").2 (by decide)⟩

/-! ### claim C7 -/

/-- Claim C7: when the alternate-color string is empty, the resolved
alternate color equals the resolved foreground color, for any foreground
(and background) hex string. -/
theorem claim_C7_empty_alt (bgHex fgHex : String) :
    (resolveColors bgHex fgHex "").2.2 = (resolveColors bgHex fgHex "").2.1 := by
  simp [resolveColors]

/-! ### Lemmas about the request loop -/

theorem prependDocs_ok (docs more : List Responses) :
    prependDocs docs (.ok more) = .ok (docs ++ more) := by
  induction docs with
  | nil => rfl
  | cons d ds ih => simp [prependDocs, consDoc, List.foldr] at ih ⊢; simp [ih, consDoc]

theorem prependDocs_aborted (docs more : List Responses) (k : AbortKind) :
    prependDocs docs (.aborted more k) = .aborted (docs ++ more) k := by
  induction docs with
  | nil => rfl
  | cons d ds ih => simp [prependDocs, List.foldr] at ih ⊢; simp [ih, consDoc]

theorem processRequests_append (eng : Engine) (pre rest : List Request)
    (hpre : ∀ q ∈ pre, goodReq eng q) :
    processRequests eng (pre ++ rest) =
      prependDocs ((pre.filter (fun q => q.function == "waveform")).map (renderDoc eng))
        (processRequests eng rest) := by
  induction pre with
  | nil => simp [prependDocs]
  | cons q pre ih =>
    have hq := hpre q (List.mem_cons_self q pre)
    have hrest : ∀ r ∈ pre, goodReq eng r := fun r hr => hpre r (List.mem_cons_of_mem q hr)
    rw [List.cons_append]
    by_cases hf : q.function = "waveform"
    · obtain ⟨p, ps, img, hp, hgen⟩ := hq hf
      have hstep : processRequests eng (q :: (pre ++ rest)) =
          consDoc (renderDoc eng q) (processRequests eng (pre ++ rest)) := by
        simp [processRequests, hf, hp, hgen, renderDoc]
      have hfilter : List.filter (fun q => q.function == "waveform") (q :: pre) =
          q :: List.filter (fun q => q.function == "waveform") pre := by
        simp [List.filter_cons, hf]
      rw [hstep, ih hrest, hfilter, List.map_cons]
      simp [prependDocs]
    · have hstep : processRequests eng (q :: (pre ++ rest)) =
          processRequests eng (pre ++ rest) := by
        simp [processRequests, hf]
      have hfilter : List.filter (fun q => q.function == "waveform") (q :: pre) =
          List.filter (fun q => q.function == "waveform") pre := by
        simp [List.filter_cons, hf]
      rw [hstep, ih hrest, hfilter]

theorem b64EncodeCore_ne_nil {bs : List Nat} (h : bs ≠ []) : b64EncodeCore bs ≠ [] := by
  match bs with
  | [] => exact absurd rfl h
  | [a] => simp [b64EncodeCore]
  | [a, b] => simp [b64EncodeCore]
  | a :: b :: c :: rest => simp [b64EncodeCore]

theorem base64Encode_ne_empty {bs : List Nat} (h : bs ≠ []) : base64Encode bs ≠ "" := by
  intro hcontra
  have hdata : (String.mk (b64EncodeCore bs)).data = ("" : String).data :=
    congrArg String.data hcontra
  simp only [String.data] at hdata
  exact b64EncodeCore_ne_nil h (by simpa using hdata)

/-! ### claim C1 -/

/-- Counterexample to claim C1 as stated: the program does not write a
single JSON document whose `responses` array has one entry per render
request.  An empty batch prints nothing at all (not the document
`\x7bresponses:[]\x7d` followed by a newline), and a batch of two render
requests prints two separate one-response documents rather than a single
two-response document. -/
theorem claim_C1_counterexample :
    runMain "solid" engDemo emptyBatchInput = .ok [] ∧
    printedOutput [] = "" ∧
    marshalResponses ⟨[]⟩ ++ "\n" ≠ "" ∧
    runMain "solid" engDemo twoBatchInput =
      .ok [⟨[⟨"1", "AgE=", "false"⟩]⟩, ⟨[⟨"2", "AgE=", "false"⟩]⟩] ∧
    ([⟨[⟨"1", "AgE=", "false"⟩]⟩, ⟨[⟨"2", "AgE=", "false"⟩]⟩] : List Responses).length ≠ 1 := by
  refine ⟨by decide, rfl, by decide, by decide, by decide⟩

/-- Claim C1 as amended: for every batch in which each render request has a
non-empty `params` array and renders successfully, the program prints one
JSON document per render request, in input order, and each such document's
`responses` array holds exactly the single response of its request; a batch
with no render requests prints nothing. -/
theorem claim_C1_amended (eng : Engine) (reqs : List Request)
    (h : ∀ q ∈ reqs, goodReq eng q) :
    processRequests eng reqs =
      .ok ((reqs.filter (fun q => q.function == "waveform")).map (renderDoc eng)) ∧
    ∀ q ∈ reqs, q.function = "waveform" →
      ∃ img, renderDoc eng q = ⟨[⟨q.id, base64Encode (eng.encodeImage img), "false"⟩]⟩ := by
  constructor
  · have happ := processRequests_append eng reqs [] h
    rw [List.append_nil] at happ
    rw [happ]
    show prependDocs _ (.ok []) = _
    rw [prependDocs_ok, List.append_nil]
  · intro q hq hf
    obtain ⟨p, ps, img, hp, hgen⟩ := h q hq hf
    exact ⟨img, by simp [renderDoc, hp, hgen]⟩

/-- Witness for claim C1 (amended) on a concrete two-request batch. -/
theorem claim_C1_amended_witness :
    processRequests engDemo
        [⟨"1", "waveform", [""]⟩, ⟨"2", "waveform", [""]⟩] =
      .ok [⟨[⟨"1", "AgE=", "false"⟩]⟩, ⟨[⟨"2", "AgE=", "false"⟩]⟩] := by
  have h := (claim_C1_amended engDemo [⟨"1", "waveform", [""]⟩, ⟨"2", "waveform", [""]⟩]
    (by
      intro q hq hf
      simp only [List.mem_cons, List.not_mem_nil, or_false] at hq
      rcases hq with rfl | rfl <;> exact ⟨"", [], [1], rfl, rfl⟩)).1
  rw [h]
  decide

/-! ### claim C2 -/

/-- Claim C2: whenever the engine fails on a render request (after any
prefix of requests the loop survives), the process terminates at that
request — by fatal log for the three classified errors, by panic otherwise
— printing no response for it and never reaching the remaining requests. -/
theorem claim_C2_abort_on_render_error (eng : Engine) (pre : List Request)
    (r : Request) (rest : List Request) (p : String) (ps : List String) (e : RenderErr)
    (hpre : ∀ q ∈ pre, goodReq eng q)
    (hf : r.function = "waveform") (hp : r.params = p :: ps)
    (he : eng.generate (b64DecodeGo p).1 = .error e) :
    processRequests eng (pre ++ r :: rest) =
      .aborted ((pre.filter (fun q => q.function == "waveform")).map (renderDoc eng))
        (abortOfErr e) ∧
    (knownRenderErr e = true → abortOfErr e = .fatalRender e) ∧
    (knownRenderErr e = false → abortOfErr e = .panicRender e) := by
  refine ⟨?_, fun hk => by simp [abortOfErr, hk], fun hk => by simp [abortOfErr, hk]⟩
  rw [processRequests_append eng pre (r :: rest) hpre]
  have hstep : processRequests eng (r :: rest) = .aborted [] (abortOfErr e) := by
    simp [processRequests, hf, hp, he]
  rw [hstep, prependDocs_aborted, List.append_nil]

/-- Witness for claim C2: a classified failure aborts fatally, an
unclassified one panics, each after printing the surviving prefix's
document. -/
theorem claim_C2_abort_on_render_error_witness :
    processRequests engFail [⟨"1", "waveform", [""]⟩] =
      .aborted [] (.fatalRender .errFormat) ∧
    processRequests engPanic [⟨"1", "waveform", [""]⟩] =
      .aborted [] (.panicRender (.unknown "boom")) := by
  constructor
  · have h := (claim_C2_abort_on_render_error engFail [] ⟨"1", "waveform", [""]⟩ [] "" []
      .errFormat (by simp) rfl rfl rfl).1
    simpa using h
  · have h := (claim_C2_abort_on_render_error engPanic [] ⟨"1", "waveform", [""]⟩ [] "" []
      (.unknown "boom") (by simp) rfl rfl rfl).1
    simpa using h

/-! ### claim C4 -/

/-- Claim C4: a successfully rendered request's printed response carries the
literal string `"false"` in its `error` field and the non-empty base64
encoding of the encoded image in its `result` field (the external TIFF
container is never empty, hence the hypothesis on `encodeImage`). -/
theorem claim_C4_success_response (eng : Engine) (i p : String) (ps : List String)
    (img : Image) (rest : List Request)
    (hg : eng.generate (b64DecodeGo p).1 = .ok img)
    (hne : eng.encodeImage img ≠ []) :
    processRequests eng (⟨i, "waveform", p :: ps⟩ :: rest) =
      consDoc ⟨[⟨i, base64Encode (eng.encodeImage img), "false"⟩]⟩
        (processRequests eng rest) ∧
    base64Encode (eng.encodeImage img) ≠ "" := by
  constructor
  · simp [processRequests, hg]
  · exact base64Encode_ne_empty hne

/-- Witness for claim C4 on a concrete request. -/
theorem claim_C4_success_response_witness :
    processRequests engDemo [⟨"1", "waveform", [""]⟩] = .ok [⟨[⟨"1", "AgE=", "false"⟩]⟩] ∧
    ("AgE=" : String) ≠ "" := by
  have h := claim_C4_success_response engDemo "1" "" [] [1] [] rfl (by decide)
  constructor
  · rw [h.1]
    decide
  · decide

/-! ### claim C5 -/

/-- Claim C5: a `fn` flag outside the five recognized strategy names makes
the process abort fatally with no output document, with an outcome
independent of the input stream — the validation happens before the stdin
reader is constructed, so no byte of input is consumed and no request is
processed. -/
theorem claim_C5_unknown_fn (fn : String)
    (h : fn ∉ ["checker", "fuzz", "gradient", "solid", "stripe"])
    (eng : Engine) (input : String) :
    runMain fn eng input = .aborted [] .fatalConfig ∧ printedOutput [] = "" := by
  have hv : validFn fn = false := by
    simp only [validFn, fnNames]
    simpa using h
  exact ⟨by simp [runMain, hv], rfl⟩

/-- Witness for claim C5 at the flag value `unknown`. -/
theorem claim_C5_unknown_fn_witness :
    runMain "unknown" engDemo emptyBatchInput = .aborted [] .fatalConfig ∧
    printedOutput [] = "" :=
  claim_C5_unknown_fn "unknown" (by decide) engDemo emptyBatchInput

/-! ### claim C6 -/

/-- Counterexample to claim C6 as stated: an input that is syntactically
valid JSON but not a well-formed envelope of the expected shape
(`params` holds a number).  Following `encoding/json`, the unmarshal type
error is returned but ignored, and the struct is populated as best it can
be: the request sequence is NOT empty — it holds a request whose `params`
stayed at its zero value — and processing it panics on `params[0]`, so the
claim's conclusions (empty request sequence, benign zero-response run)
both fail. -/
theorem claim_C6_counterexample :
    (decodeRequests badShapeInput).requests = [⟨"x", "waveform", []⟩] ∧
    (decodeRequests badShapeInput).requests ≠ [] ∧
    runMain "solid" engDemo badShapeInput = .aborted [] .panicIndex := by
  refine ⟨by decide, by decide, by decide⟩

/-- Claim C6 as amended: for every input that is not syntactically valid
JSON, the unmarshal error is ignored and the request sequence stays empty,
so the process completes with zero responses and does not crash.  (Inputs
that are valid JSON of the wrong shape may instead yield partially-decoded
requests.) -/
theorem claim_C6_amended (s : String) (h : jsonParse s = none) (eng : Engine) :
    decodeRequests s = ⟨[]⟩ ∧
    processRequests eng (decodeRequests s).requests = .ok [] := by
  constructor
  · simp [decodeRequests, h]
  · simp [decodeRequests, h, processRequests]

/-- Witness for claim C6 (amended) at the truncated input consisting of a
single opening brace. -/
theorem claim_C6_amended_witness :
    decodeRequests "\x7b" = ⟨[]⟩ ∧
    processRequests engDemo (decodeRequests "\x7b").requests = .ok [] :=
  claim_C6_amended "\x7b" rfl engDemo

/-! ### claim C8 -/

/-- Claim C8: a request whose `function` is not `"waveform"` is skipped
entirely — it contributes no response document and no error report, the
loop's outcome being exactly that of the remaining requests. -/
theorem claim_C8_skip_other_functions (eng : Engine) (r : Request)
    (h : r.function ≠ "waveform") (rest : List Request) :
    processRequests eng (r :: rest) = processRequests eng rest := by
  simp [processRequests, h]

/-- Witness for claim C8 on a concrete non-render request. -/
theorem claim_C8_skip_other_functions_witness :
    processRequests engDemo [⟨"1", "other", []⟩] = .ok [] :=
  (claim_C8_skip_other_functions engDemo ⟨"1", "other", []⟩ (by decide) []).trans rfl

/-! ### claim C9 -/

/-- Claim C9: for a render request whose payload is not valid base64, the
decode error is discarded — the loop's behavior is a function of the
partially-decoded buffer alone, so any payload decoding to the same bytes
is processed identically — and rendering proceeds on that buffer, with the
possible outcomes (a success document whose `error` field is `"false"`, or
an engine abort) never mentioning the base64 failure. -/
theorem claim_C9_b64_error_discarded (eng : Engine) (i p : String) (ps : List String)
    (rest : List Request) (_hbad : (b64DecodeGo p).2 = false) :
    processRequests eng (⟨i, "waveform", p :: ps⟩ :: rest) =
      (match eng.generate (b64DecodeGo p).1 with
       | .ok img =>
         consDoc ⟨[⟨i, base64Encode (eng.encodeImage img), "false"⟩]⟩
           (processRequests eng rest)
       | .error e => .aborted [] (abortOfErr e)) ∧
    ∀ p' : String, (b64DecodeGo p').1 = (b64DecodeGo p).1 →
      processRequests eng (⟨i, "waveform", p' :: ps⟩ :: rest) =
        processRequests eng (⟨i, "waveform", p :: ps⟩ :: rest) := by
  constructor
  · simp only [processRequests]
    norm_num
    cases eng.generate (b64DecodeGo p).1 <;> rfl
  · intro p' hp'
    simp only [processRequests]
    rw [hp']

/-- Witness for claim C9: the invalid payload `!!` decodes to the empty
buffer, rendering proceeds on it, and the printed response reports
`"false"` (no base64 failure). -/
theorem claim_C9_b64_error_discarded_witness :
    processRequests engDemo [⟨"1", "waveform", ["!!"]⟩] =
      .ok [⟨[⟨"1", "AgE=", "false"⟩]⟩] := by
  have h := (claim_C9_b64_error_discarded engDemo "1" "!!" [] [] (by decide)).1
  rw [h]
  decide

/-! ### claim C10 -/

/-- Claim C10: a render request with an empty `params` array makes the loop
index `params[0]` out of range, a runtime panic that aborts the process
before any response for it (or any later request) is printed; safe
processing therefore needs every render request's `params` to be
non-empty. -/
theorem claim_C10_empty_params_panics (eng : Engine) (i : String) (rest : List Request) :
    processRequests eng (⟨i, "waveform", []⟩ :: rest) = .aborted [] .panicIndex := by
  simp [processRequests]

end Waveform
